import Mathlib

/-!
Shallow embedding of the Event_hub event-discovery logic.

The embedded code is the `EventsPage` filter/sort pipeline (search filter,
category filter, type filter, price-range filter, comparator sort, URL
parameter projection, initial state, clearFilters) and the `AuthModal`
login/signup mode selector, of which the repository contains two variants:
one with a `useEffect` that re-syncs the internal `mode` state to the
`defaultMode` prop, and one without that effect.

Modelling conventions:
* JavaScript strings are Lean `String`; `toLowerCase` lowercases each character
  and `String.prototype.includes` is an explicit substring scan.
* The `date` field stores the timestamp obtained from `new Date(e.date)`,
  as a natural number, so that the date comparator's subtraction is integer
  subtraction of timestamps.
* `attendees` may be absent (`e.attendees || 0` in the source), hence
  `Option Nat`; likewise `tags` may be absent (`event.tags?.some`).
* `Array.prototype.sort` with a comparator is, per the ECMAScript
  specification, a stable sort with respect to `cmp a b ≤ 0`; it is embedded
  as `List.mergeSort` (stable) over that boolean relation.
* `localeCompare` is modelled as code-point lexicographic comparison.
-/

namespace EventHub

/-- An event record as consumed by the `EventsPage` pipeline. -/
structure Event where
  id : Nat
  title : String
  description : String
  location : String
  category : String
  date : Nat
  price : Nat
  isOnline : Bool
  attendees : Option Nat
  tags : Option (List String)
  deriving DecidableEq, Repr

/-- The user-chosen filter criteria of `EventsPage`: `searchQuery`,
`selectedCategory`, `selectedType`, `priceRange = [priceLo, priceHi]`,
`sortBy`. -/
structure Criteria where
  textQuery : String
  category : String
  type : String
  priceLo : Nat
  priceHi : Nat
  sortKey : String
  deriving DecidableEq, Repr

/-- Char-list prefix test, the stepwise head comparison underlying the
substring scan. -/
def hasPref : List Char → List Char → Bool
  | [], _ => true
  | _ :: _, [] => false
  | a :: q, b :: h => a == b && hasPref q h

/-- Substring test on char lists: `q` occurs contiguously inside `h`. -/
def hasSub : List Char → List Char → Bool
  | q, [] => hasPref q []
  | q, b :: t => hasPref q (b :: t) || hasSub q t

/-- `hay.includes(q)` of JavaScript: `q` is a substring of `hay`. -/
def strIncludes (hay q : String) : Bool :=
  hasSub q.data hay.data

/-- `s.toLowerCase()`: lowercase every character. -/
def lowerStr (s : String) : String :=
  ⟨s.data.map Char.toLower⟩

/-- The body of the search filter's predicate with the query already
lowercased (the source lowercases `searchQuery` once before filtering):
`event.title.toLowerCase().includes(query) || event.description... ||
event.location... || event.tags?.some(tag => tag.toLowerCase().includes(query))`. -/
def textMatches (query : String) (e : Event) : Bool :=
  strIncludes (lowerStr e.title) query ||
  strIncludes (lowerStr e.description) query ||
  strIncludes (lowerStr e.location) query ||
  (match e.tags with
   | some ts => ts.any fun t => strIncludes (lowerStr t) query
   | none => false)

/-- Search filter step: `if (searchQuery) { filtered = filtered.filter(...) }`;
an empty string is falsy, so the step is skipped. -/
def searchStep (c : Criteria) (l : List Event) : List Event :=
  if c.textQuery == "" then l
  else l.filter (textMatches (lowerStr c.textQuery))

/-- Category filter step: `if (selectedCategory) { ...filter(event =>
event.category === selectedCategory) }`. -/
def categoryStep (c : Criteria) (l : List Event) : List Event :=
  if c.category == "" then l
  else l.filter fun e => e.category == c.category

/-- Type filter step: `if (selectedType) { if (selectedType === 'online')
...filter(isOnline); else if (selectedType === 'offline') ...filter(!isOnline) }`;
any other non-empty value applies no filter. -/
def typeStep (c : Criteria) (l : List Event) : List Event :=
  if c.type == "" then l
  else if c.type == "online" then l.filter fun e => e.isOnline
  else if c.type == "offline" then l.filter fun e => !e.isOnline
  else l

/-- Price range filter step, applied unconditionally:
`filtered.filter(event => event.price >= priceRange[0] && event.price <= priceRange[1])`. -/
def priceStep (c : Criteria) (l : List Event) : List Event :=
  l.filter fun e => c.priceLo ≤ e.price && e.price ≤ c.priceHi

/-- Code-point lexicographic three-way comparison on char lists, the model
of `localeCompare`: negative when the first list precedes the second. -/
def cmpChars : List Char → List Char → Int
  | [], [] => 0
  | [], _ :: _ => -1
  | _ :: _, [] => 1
  | a :: as, b :: bs =>
    if a.toNat < b.toNat then -1
    else if b.toNat < a.toNat then 1
    else cmpChars as bs

/-- `a.localeCompare(b)` modelled as code-point lexicographic comparison. -/
def cmpStr (a b : String) : Int :=
  cmpChars a.data b.data

/-- `event.attendees || 0`: a missing attendee count is treated as 0. -/
def attendeeCount (e : Event) : Nat :=
  e.attendees.getD 0

/-- The sort comparator of the pipeline, switching on `sortBy`:
date ascending, price ascending, price descending, attendees descending,
title lexicographic; any unrecognized key compares everything equal
(the `default: return 0` case). -/
def compareEvents (k : String) (a b : Event) : Int :=
  if k == "date" then (a.date : Int) - (b.date : Int)
  else if k == "price-low" then (a.price : Int) - (b.price : Int)
  else if k == "price-high" then (b.price : Int) - (a.price : Int)
  else if k == "popularity" then (attendeeCount b : Int) - (attendeeCount a : Int)
  else if k == "name" then cmpStr a.title b.title
  else 0

/-- The boolean order induced by a JavaScript comparator: `a` may precede
`b` exactly when `cmp a b ≤ 0`. -/
def jsLe (cmp : Event → Event → Int) (a b : Event) : Bool :=
  decide (cmp a b ≤ 0)

/-- `Array.prototype.sort(cmp)`: the stable sort with respect to
`cmp a b ≤ 0`, embedded as the stable `List.mergeSort`. -/
def jsSort (cmp : Event → Event → Int) (l : List Event) : List Event :=
  l.mergeSort (jsLe cmp)

/-- The four filter steps of the effect, in the source's fixed order:
search, category, type, price range. -/
def filterPipeline (c : Criteria) (l : List Event) : List Event :=
  priceStep c (typeStep c (categoryStep c (searchStep c l)))

/-- The whole derivation performed by the filter effect: the four filter
steps followed by the comparator sort; the result becomes `filteredEvents`. -/
def derive (c : Criteria) (events : List Event) : List Event :=
  jsSort (compareEvents c.sortKey) (filterPipeline c events)

/-- The search filter as a total predicate: pass when the query is empty,
otherwise when `textMatches` holds for the lowercased query. -/
def textPred (c : Criteria) (e : Event) : Bool :=
  c.textQuery == "" || textMatches (lowerStr c.textQuery) e

/-- The category filter as a total predicate. -/
def catPred (c : Criteria) (e : Event) : Bool :=
  c.category == "" || e.category == c.category

/-- The type filter as a total predicate: an empty or unrecognized type
passes everything. -/
def typePred (c : Criteria) (e : Event) : Bool :=
  if c.type == "online" then e.isOnline
  else if c.type == "offline" then !e.isOnline
  else true

/-- The price-range filter as a predicate (exactly the filter's lambda). -/
def pricePred (c : Criteria) (e : Event) : Bool :=
  c.priceLo ≤ e.price && e.price ≤ c.priceHi

/-- Conjunction of the four filter predicates. -/
def passes (c : Criteria) (e : Event) : Bool :=
  textPred c e && catPred c e && typePred c e && pricePred c e

/-- The four filter predicates in the pipeline's fixed order. -/
def criteriaPreds (c : Criteria) : List (Event → Bool) :=
  [textPred c, catPred c, typePred c, pricePred c]

/-- Apply a list of filter predicates left to right. -/
def applyPreds (ps : List (Event → Bool)) (l : List Event) : List Event :=
  ps.foldl (fun acc p => acc.filter p) l

/-- The URL-parameter effect: a fresh `URLSearchParams` receives `search`
when the text query is non-empty and then `category` when the category is
non-empty. -/
def buildParams (searchQuery selectedCategory : String) : List (String × String) :=
  (if searchQuery == "" then [] else [("search", searchQuery)]) ++
  (if selectedCategory == "" then [] else [("category", selectedCategory)])

/-- The page's initial criteria: `searchQuery` and `selectedCategory` read
from the URL parameters (empty when absent), `selectedType` empty,
`priceRange` `[0, 1000]`, `sortBy` `'date'`. -/
def initialCriteria (urlSearch urlCategory : Option String) : Criteria :=
  { textQuery := urlSearch.getD ""
    category := urlCategory.getD ""
    type := ""
    priceLo := 0
    priceHi := 1000
    sortKey := "date" }

/-- `clearFilters`: resets every criterion — empty query, empty category,
empty type, price range `[0, 1000]`, sort key `'date'`. -/
def clearFilters (_ : Criteria) : Criteria :=
  { textQuery := ""
    category := ""
    type := ""
    priceLo := 0
    priceHi := 1000
    sortKey := "date" }

/-- Events of the `AuthModal` mode state: the `defaultMode` prop changing
(which re-runs the sync effect when present), and the two switch callbacks. -/
inductive ModalEv where
  | setDefaultMode (d : String)
  | switchToLogin
  | switchToSignup
  deriving DecidableEq, Repr

/-- Mode transition of the first `AuthModal` variant, whose
`useEffect(() => setMode(defaultMode), [defaultMode, isOpen])` resets the
internal mode whenever the prop changes. -/
def authModalSyncStep (_mode : String) (ev : ModalEv) : String :=
  match ev with
  | .setDefaultMode d => d
  | .switchToLogin => "login"
  | .switchToSignup => "signup"

/-- Mode transition of the second `AuthModal` variant, which has no sync
effect: `useState(defaultMode)` only reads the prop at mount, so a later
prop change leaves the internal mode untouched. -/
def authModalNoSyncStep (mode : String) (ev : ModalEv) : String :=
  match ev with
  | .setDefaultMode _ => mode
  | .switchToLogin => "login"
  | .switchToSignup => "signup"

/-- The "Jazz Night" example record of the specification. -/
def jazzNight : Event :=
  { id := 1
    title := "Jazz Night"
    description := ""
    location := ""
    category := ""
    date := 20240501
    price := 20
    isOnline := false
    attendees := some 50
    tags := none }

/-- The "Art Expo" example record of the specification. -/
def artExpo : Event :=
  { id := 2
    title := "Art Expo"
    description := ""
    location := ""
    category := ""
    date := 20240401
    price := 0
    isOnline := false
    attendees := some 200
    tags := none }

/-- The two example events, in the specification's input order. -/
def specEvents : List Event :=
  [jazzNight, artExpo]

/-- An event priced above the slider's maximum of 1000. -/
def pricyGala : Event :=
  { id := 3
    title := "Pricy Gala"
    description := ""
    location := ""
    category := ""
    date := 20240601
    price := 1500
    isOnline := false
    attendees := none
    tags := none }

/-! ## General lemmas about the embedded operations -/

theorem mergeSort_pair {α : Type} (le : α → α → Bool) (a b : α) :
    List.mergeSort [a, b] le = if le a b then [a, b] else [b, a] := by
  rw [List.mergeSort]
  simp [List.splitInTwo_fst, List.splitInTwo_snd, List.merge]

theorem searchStep_eq_filter (c : Criteria) (l : List Event) :
    searchStep c l = l.filter (textPred c) := by
  unfold searchStep textPred
  by_cases h : c.textQuery == "" <;> simp [h]

theorem categoryStep_eq_filter (c : Criteria) (l : List Event) :
    categoryStep c l = l.filter (catPred c) := by
  unfold categoryStep catPred
  by_cases h : c.category == "" <;> simp [h]

theorem typeStep_eq_filter (c : Criteria) (l : List Event) :
    typeStep c l = l.filter (typePred c) := by
  unfold typeStep typePred
  by_cases h1 : c.type == ""
  · have h1' : c.type = "" := by simpa using h1
    simp [h1']
  · by_cases h2 : c.type == "online"
    · simp [h1, h2]
    · by_cases h3 : c.type == "offline"
      · simp [h1, h2, h3]
      · simp [h1, h2, h3]

theorem priceStep_eq_filter (c : Criteria) (l : List Event) :
    priceStep c l = l.filter (pricePred c) := rfl

theorem filterPipeline_eq_filter (c : Criteria) (l : List Event) :
    filterPipeline c l = l.filter (passes c) := by
  unfold filterPipeline
  rw [searchStep_eq_filter, categoryStep_eq_filter, typeStep_eq_filter,
    priceStep_eq_filter]
  simp only [List.filter_filter]
  apply List.filter_congr
  intro a _
  unfold passes
  cases h1 : textPred c a <;> cases h2 : catPred c a <;> cases h3 : typePred c a <;>
    cases h4 : pricePred c a <;> simp [h1, h2, h3, h4]

theorem cmpChars_swap : ∀ (a b : List Char), cmpChars b a = -cmpChars a b
  | [], [] => rfl
  | [], _ :: _ => rfl
  | _ :: _, [] => rfl
  | a :: as, b :: bs => by
    simp only [cmpChars]
    split_ifs <;> first
      | omega
      | exact cmpChars_swap as bs

theorem cmpChars_trans : ∀ (a b c : List Char),
    cmpChars a b ≤ 0 → cmpChars b c ≤ 0 → cmpChars a c ≤ 0
  | [], [], _, _, h2 => h2
  | [], _ :: _, [], _, _ => by simp [cmpChars]
  | [], _ :: _, _ :: _, _, _ => by simp only [cmpChars]; omega
  | _ :: _, [], _, h1, _ => by simp [cmpChars] at h1
  | _ :: _, _ :: _, [], _, h2 => by simp [cmpChars] at h2
  | x :: xs, y :: ys, z :: zs, h1, h2 => by
    simp only [cmpChars] at h1 h2 ⊢
    split_ifs at h1 h2 ⊢ <;> first
      | omega
      | exact cmpChars_trans xs ys zs h1 h2

theorem jsLe_trans (k : String) (a b c : Event) :
    jsLe (compareEvents k) a b = true → jsLe (compareEvents k) b c = true →
    jsLe (compareEvents k) a c = true := by
  simp only [jsLe, decide_eq_true_eq, compareEvents, cmpStr]
  split_ifs <;> intro h1 h2 <;> first
    | omega
    | exact cmpChars_trans _ _ _ h1 h2

theorem jsLe_total (k : String) (a b : Event) :
    (jsLe (compareEvents k) a b || jsLe (compareEvents k) b a) = true := by
  simp only [jsLe, compareEvents, cmpStr, Bool.or_eq_true, decide_eq_true_eq]
  split_ifs <;> first
    | omega
    | (have h := cmpChars_swap a.title.data b.title.data; omega)

theorem applyPreds_cons (p : Event → Bool) (ps : List (Event → Bool))
    (l : List Event) : applyPreds (p :: ps) l = applyPreds ps (l.filter p) := rfl

theorem applyPreds_eq_filter_all : ∀ (ps : List (Event → Bool)) (l : List Event),
    applyPreds ps l = l.filter (fun e => ps.all (fun q => q e))
  | [], l => by simp [applyPreds]
  | p :: ps, l => by
    rw [applyPreds_cons, applyPreds_eq_filter_all ps, List.filter_filter]
    apply List.filter_congr
    intro a _
    cases h : p a <;> simp [List.all_cons, h]

theorem all_of_perm {ps qs : List (Event → Bool)} (h : List.Perm ps qs)
    (e : Event) : ps.all (fun q => q e) = qs.all (fun q => q e) := by
  induction h with
  | nil => rfl
  | cons x _ ih => simp only [List.all_cons, ih]
  | swap x y l =>
    simp only [List.all_cons]
    cases x e <;> cases y e <;> simp
  | trans _ _ ih1 ih2 => rw [ih1, ih2]

theorem compareEvents_date (a b : Event) :
    compareEvents "date" a b = (a.date : Int) - (b.date : Int) := rfl

theorem compareEvents_price_low (a b : Event) :
    compareEvents "price-low" a b = (a.price : Int) - (b.price : Int) := rfl

theorem compareEvents_price_high (a b : Event) :
    compareEvents "price-high" a b = (b.price : Int) - (a.price : Int) := rfl

theorem compareEvents_popularity (a b : Event) :
    compareEvents "popularity" a b =
      (attendeeCount b : Int) - (attendeeCount a : Int) := rfl

theorem compareEvents_name (a b : Event) :
    compareEvents "name" a b = cmpStr a.title b.title := rfl

theorem jsSort_sorted (k : String) (l : List Event) :
    (jsSort (compareEvents k) l).Pairwise
      (fun a b => jsLe (compareEvents k) a b = true) :=
  List.sorted_mergeSort (jsLe_trans k) (jsLe_total k) l

theorem jsSort_filter_eq_of_cmp_zero (k : String) (l : List Event)
    (p : Event → Bool)
    (hp : ∀ a ∈ l, ∀ b ∈ l, p a = true → p b = true → compareEvents k a b = 0) :
    (jsSort (compareEvents k) l).filter p = l.filter p := by
  have hpair : (l.filter p).Pairwise (fun a b => jsLe (compareEvents k) a b = true) := by
    apply List.pairwise_of_forall_mem_list
    intro a ha b hb
    rw [List.mem_filter] at ha hb
    have h0 := hp a ha.1 b hb.1 ha.2 hb.2
    simp [jsLe, h0]
  have hsub : List.Sublist (l.filter p) (jsSort (compareEvents k) l) :=
    List.sublist_mergeSort (jsLe_trans k) (jsLe_total k) hpair (List.filter_sublist l)
  have hself : (l.filter p).filter p = l.filter p :=
    List.filter_eq_self.mpr fun a ha => (List.mem_filter.mp ha).2
  have hsub2 : List.Sublist (l.filter p) ((jsSort (compareEvents k) l).filter p) := by
    have := List.Sublist.filter p hsub
    rwa [hself] at this
  have hlen : ((jsSort (compareEvents k) l).filter p).length = (l.filter p).length :=
    (List.Perm.filter p (List.mergeSort_perm l (jsLe (compareEvents k)))).length_eq
  exact (hsub2.eq_of_length hlen.symm).symm

/-! ## Claims -/

/-- Claim C1: with empty text query, empty category, empty type, and a price
range containing the price of every event in the list, `derive` is exactly
the sort of the input by the chosen sort key, and in particular its result
is a permutation of (set-equal to) the input. -/
theorem derive_no_filter_perm (c : Criteria) (l : List Event)
    (hq : c.textQuery = "") (hc : c.category = "") (ht : c.type = "")
    (hp : ∀ e ∈ l, c.priceLo ≤ e.price ∧ e.price ≤ c.priceHi) :
    derive c l = jsSort (compareEvents c.sortKey) l ∧
    List.Perm (derive c l) l := by
  have hf : filterPipeline c l = l := by
    unfold filterPipeline searchStep categoryStep typeStep priceStep
    rw [hq, hc, ht]
    simp only [beq_self_eq_true, if_true]
    apply List.filter_eq_self.mpr
    intro a ha
    have h := hp a ha
    simp [h.1, h.2]
  refine ⟨by rw [derive, hf], ?_⟩
  rw [derive, hf, jsSort]
  exact List.mergeSort_perm l _

/-- Witness for C1: the no-filter criteria over the example events. -/
theorem derive_no_filter_perm_witness :
    derive ⟨ "", "", "", 0, 1000, "date"⟩ specEvents =
      jsSort (compareEvents "date") specEvents ∧
    List.Perm (derive ⟨ "", "", "", 0, 1000, "date"⟩ specEvents) specEvents :=
  derive_no_filter_perm ⟨ "", "", "", 0, 1000, "date"⟩ specEvents rfl rfl rfl
    (by decide)

/-- Claim C2: the text-filter step keeps a record iff the text query is empty
or the lowercased query is a substring of the lowercased title, description,
location, or of some tag; in particular the query "jazz" over the example
events derives exactly [Jazz Night]. -/
theorem searchStep_keeps_iff (c : Criteria) (l : List Event) (e : Event) :
    (e ∈ searchStep c l ↔ e ∈ l ∧ (c.textQuery = "" ∨
      strIncludes (lowerStr e.title) (lowerStr c.textQuery) = true ∨
      strIncludes (lowerStr e.description) (lowerStr c.textQuery) = true ∨
      strIncludes (lowerStr e.location) (lowerStr c.textQuery) = true ∨
      (∃ t ∈ e.tags.getD [], strIncludes (lowerStr t) (lowerStr c.textQuery) = true))) ∧
    derive ⟨ "jazz", "", "", 0, 1000, "date"⟩ specEvents = [jazzNight] := by
  constructor
  · rw [searchStep_eq_filter, List.mem_filter]
    unfold textPred textMatches
    cases htags : e.tags <;>
      simp [htags, List.any_eq_true, beq_iff_eq, and_congr_right_iff, or_assoc]
  · rw [derive]
    have h : filterPipeline ⟨ "jazz", "", "", 0, 1000, "date"⟩ specEvents =
        [jazzNight] := by decide
    rw [h, jsSort, List.mergeSort_singleton]

/-- Claim C3: the sort step is stable — a class of records of the list whose
sort keys all compare equal keeps its relative input order (its filter is
unchanged by sorting) — and is keyed as the spec states: ascending date for
"date", ascending price for "price-low", descending price for "price-high",
descending attendee count (missing treated as 0) for "popularity",
lexicographic title order for "name"; the example events sorted with
"price-low" come out as [Art Expo, Jazz Night]. -/
theorem jsSort_stable_keyed (k : String) (l : List Event) (p : Event → Bool)
    (hp : ∀ a ∈ l, ∀ b ∈ l, p a = true → p b = true → compareEvents k a b = 0) :
    (jsSort (compareEvents k) l).filter p = l.filter p ∧
    (jsSort (compareEvents "date") l).Pairwise (fun a b => a.date ≤ b.date) ∧
    (jsSort (compareEvents "price-low") l).Pairwise (fun a b => a.price ≤ b.price) ∧
    (jsSort (compareEvents "price-high") l).Pairwise (fun a b => b.price ≤ a.price) ∧
    (jsSort (compareEvents "popularity") l).Pairwise
      (fun a b => attendeeCount b ≤ attendeeCount a) ∧
    (jsSort (compareEvents "name") l).Pairwise
      (fun a b => cmpStr a.title b.title ≤ 0) ∧
    derive ⟨ "", "", "", 0, 1000, "price-low"⟩ specEvents = [artExpo, jazzNight] := by
  refine ⟨jsSort_filter_eq_of_cmp_zero k l p hp, ?_, ?_, ?_, ?_, ?_, ?_⟩
  · refine (jsSort_sorted "date" l).imp ?_
    intro a b hab
    simp only [jsLe, decide_eq_true_eq, compareEvents_date] at hab
    omega
  · refine (jsSort_sorted "price-low" l).imp ?_
    intro a b hab
    simp only [jsLe, decide_eq_true_eq, compareEvents_price_low] at hab
    omega
  · refine (jsSort_sorted "price-high" l).imp ?_
    intro a b hab
    simp only [jsLe, decide_eq_true_eq, compareEvents_price_high] at hab
    omega
  · refine (jsSort_sorted "popularity" l).imp ?_
    intro a b hab
    simp only [jsLe, decide_eq_true_eq, compareEvents_popularity] at hab
    omega
  · refine (jsSort_sorted "name" l).imp ?_
    intro a b hab
    simp only [jsLe, decide_eq_true_eq, compareEvents_name] at hab
    exact hab
  · rw [derive]
    have h : filterPipeline ⟨ "", "", "", 0, 1000, "price-low"⟩ specEvents =
        [jazzNight, artExpo] := by decide
    rw [h, jsSort]
    show List.mergeSort [jazzNight, artExpo] _ = _
    rw [mergeSort_pair]
    decide

/-- Witness for C3: the price-20 class of the example events under the
"price-low" key. -/
theorem jsSort_stable_keyed_witness :
    (jsSort (compareEvents "price-low") specEvents).filter (fun e => e.price == 20) =
      specEvents.filter (fun e => e.price == 20) ∧
    (jsSort (compareEvents "date") specEvents).Pairwise (fun a b => a.date ≤ b.date) ∧
    (jsSort (compareEvents "price-low") specEvents).Pairwise (fun a b => a.price ≤ b.price) ∧
    (jsSort (compareEvents "price-high") specEvents).Pairwise (fun a b => b.price ≤ a.price) ∧
    (jsSort (compareEvents "popularity") specEvents).Pairwise
      (fun a b => attendeeCount b ≤ attendeeCount a) ∧
    (jsSort (compareEvents "name") specEvents).Pairwise
      (fun a b => cmpStr a.title b.title ≤ 0) ∧
    derive ⟨ "", "", "", 0, 1000, "price-low"⟩ specEvents = [artExpo, jazzNight] :=
  jsSort_stable_keyed "price-low" specEvents (fun e => e.price == 20) (by decide)

/-- Claim C4: a record of the list passes the price filter iff
`priceLo ≤ price ≤ priceHi`, both bounds inclusive; in particular a record
whose price equals either bound of the (ordered) range is kept. -/
theorem priceStep_boundary (c : Criteria) (l : List Event) (e : Event)
    (he : e ∈ l) (hrange : c.priceLo ≤ c.priceHi)
    (hb : e.price = c.priceLo ∨ e.price = c.priceHi) :
    (∀ x ∈ l, (x ∈ priceStep c l ↔ c.priceLo ≤ x.price ∧ x.price ≤ c.priceHi)) ∧
    e ∈ priceStep c l := by
  have hiff : ∀ x ∈ l, (x ∈ priceStep c l ↔ c.priceLo ≤ x.price ∧ x.price ≤ c.priceHi) := by
    intro x hx
    unfold priceStep
    rw [List.mem_filter]
    simp [hx]
  refine ⟨hiff, (hiff e he).mpr ?_⟩
  rcases hb with hb | hb <;> omega

/-- Witness for C4: Jazz Night's price 20 sits exactly on the lower bound of
the range [20, 1000] and the record is kept. -/
theorem priceStep_boundary_witness :
    (∀ x ∈ specEvents,
      (x ∈ priceStep ⟨ "", "", "", 20, 1000, "date"⟩ specEvents ↔
        20 ≤ x.price ∧ x.price ≤ 1000)) ∧
    jazzNight ∈ priceStep ⟨ "", "", "", 20, 1000, "date"⟩ specEvents :=
  priceStep_boundary ⟨ "", "", "", 20, 1000, "date"⟩ specEvents jazzNight
    (by decide) (by decide) (Or.inl (by decide))

/-- Claim C5: applying the four filter predicates (text, category, type,
price range) in any order yields the same records as the pipeline's fixed
order, and the derivation is that common result followed by the sort — only
the final sort is order-sensitive. -/
theorem filters_commute (c : Criteria) (l : List Event)
    (ps : List (Event → Bool)) (h : List.Perm ps (criteriaPreds c)) :
    applyPreds ps l = filterPipeline c l ∧
    derive c l = jsSort (compareEvents c.sortKey) (applyPreds ps l) := by
  have h1 : applyPreds ps l = filterPipeline c l := by
    rw [applyPreds_eq_filter_all, filterPipeline_eq_filter]
    apply List.filter_congr
    intro a _
    rw [all_of_perm h a]
    unfold criteriaPreds passes
    simp only [List.all_cons, List.all_nil, Bool.and_true]
    cases textPred c a <;> cases catPred c a <;> cases typePred c a <;>
      cases pricePred c a <;> rfl
  exact ⟨h1, by rw [derive, h1]⟩

/-- Witness for C5: the category and text predicates swapped in front of the
other two, over the example events. -/
theorem filters_commute_witness :
    applyPreds
      [catPred ⟨ "jazz", "", "", 0, 1000, "date"⟩,
       textPred ⟨ "jazz", "", "", 0, 1000, "date"⟩,
       typePred ⟨ "jazz", "", "", 0, 1000, "date"⟩,
       pricePred ⟨ "jazz", "", "", 0, 1000, "date"⟩] specEvents =
      filterPipeline ⟨ "jazz", "", "", 0, 1000, "date"⟩ specEvents ∧
    derive ⟨ "jazz", "", "", 0, 1000, "date"⟩ specEvents =
      jsSort (compareEvents ("date"))
        (applyPreds
          [catPred ⟨ "jazz", "", "", 0, 1000, "date"⟩,
           textPred ⟨ "jazz", "", "", 0, 1000, "date"⟩,
           typePred ⟨ "jazz", "", "", 0, 1000, "date"⟩,
           pricePred ⟨ "jazz", "", "", 0, 1000, "date"⟩] specEvents) :=
  filters_commute ⟨ "jazz", "", "", 0, 1000, "date"⟩ specEvents
    [catPred ⟨ "jazz", "", "", 0, 1000, "date"⟩,
     textPred ⟨ "jazz", "", "", 0, 1000, "date"⟩,
     typePred ⟨ "jazz", "", "", 0, 1000, "date"⟩,
     pricePred ⟨ "jazz", "", "", 0, 1000, "date"⟩]
    (by unfold criteriaPreds; exact List.Perm.swap _ _ _)

/-- Claim C6: derivation is idempotent — re-deriving the derived result with
the same criteria returns it unchanged, order included. -/
theorem derive_idem (c : Criteria) (l : List Event) :
    derive c (derive c l) = derive c l := by
  have hpass : ∀ e ∈ derive c l, passes c e = true := by
    intro e he
    rw [derive, jsSort, List.mem_mergeSort, filterPipeline_eq_filter,
      List.mem_filter] at he
    exact he.2
  have h1 : filterPipeline c (derive c l) = derive c l := by
    rw [filterPipeline_eq_filter]
    exact List.filter_eq_self.mpr hpass
  have hsorted : (derive c l).Pairwise
      (fun a b => jsLe (compareEvents c.sortKey) a b = true) := by
    rw [derive]
    exact jsSort_sorted _ _
  rw [derive, h1, jsSort]
  exact List.mergeSort_of_sorted hsorted

/-- Claim C8: a type value other than "online"/"offline" applies no filter,
an unrecognized sort key applies no reordering, derivation is total, and an
empty result is an ordinary outcome. -/
theorem invalid_criteria_defaults (c : Criteria) (l : List Event) :
    (c.type ≠ "online" → c.type ≠ "offline" → typeStep c l = l) ∧
    (c.sortKey ∉ (["date", "price-low", "price-high", "popularity", "name"] :
        List String) → derive c l = filterPipeline c l) ∧
    derive c [] = [] := by
  refine ⟨?_, ?_, ?_⟩
  · intro h1 h2
    unfold typeStep
    split_ifs with ha hb hc
    · rfl
    · exact absurd (by simpa using hb) h1
    · exact absurd (by simpa using hc) h2
    · rfl
  · intro hk
    have h0 : ∀ a b : Event, compareEvents c.sortKey a b = 0 := by
      intro a b
      have k1 : (c.sortKey == "date") = false := by
        simp only [beq_eq_false_iff_ne]
        intro h
        exact hk (by simp [h])
      have k2 : (c.sortKey == "price-low") = false := by
        simp only [beq_eq_false_iff_ne]
        intro h
        exact hk (by simp [h])
      have k3 : (c.sortKey == "price-high") = false := by
        simp only [beq_eq_false_iff_ne]
        intro h
        exact hk (by simp [h])
      have k4 : (c.sortKey == "popularity") = false := by
        simp only [beq_eq_false_iff_ne]
        intro h
        exact hk (by simp [h])
      have k5 : (c.sortKey == "name") = false := by
        simp only [beq_eq_false_iff_ne]
        intro h
        exact hk (by simp [h])
      simp [compareEvents, k1, k2, k3, k4, k5]
    rw [derive, jsSort]
    apply List.mergeSort_of_sorted
    apply List.pairwise_of_forall_mem_list
    intro a _ b _
    simp [jsLe, h0]
  · have hnil : filterPipeline c [] = [] := by
      unfold filterPipeline priceStep typeStep categoryStep searchStep
      split_ifs <;> rfl
    rw [derive, hnil, jsSort, List.mergeSort_nil]

/-- Witness for C8: the unrecognized type "hybrid" and sort key "random". -/
theorem invalid_criteria_defaults_witness :
    typeStep ⟨ "", "", "hybrid", 0, 1000, "random"⟩ specEvents = specEvents ∧
    derive ⟨ "", "", "hybrid", 0, 1000, "random"⟩ specEvents =
      filterPipeline ⟨ "", "", "hybrid", 0, 1000, "random"⟩ specEvents ∧
    derive ⟨ "", "", "hybrid", 0, 1000, "random"⟩ [] = [] :=
  ⟨(invalid_criteria_defaults ⟨ "", "", "hybrid", 0, 1000, "random"⟩
      specEvents).1 (by decide) (by decide),
   (invalid_criteria_defaults ⟨ "", "", "hybrid", 0, 1000, "random"⟩
      specEvents).2.1 (by decide),
   (invalid_criteria_defaults ⟨ "", "", "hybrid", 0, 1000, "random"⟩ []).2.2⟩

/-- Claim C9: the rebuilt URL parameters hold `search` with the query's value
exactly when the text query is non-empty, and `category` with the category's
value exactly when the category is non-empty; both are omitted when empty. -/
theorem buildParams_spec (q cat : String) :
    (buildParams q cat).lookup "search" = (if q = "" then none else some q) ∧
    (buildParams q cat).lookup "category" = (if cat = "" then none else some cat) := by
  by_cases hq : q = "" <;> by_cases hc : cat = "" <;>
    simp [buildParams, List.lookup, hq, hc]

/-- Claim C10: the initial criteria and the cleared criteria both carry the
price range [0, 1000], so an event priced above 1000 is excluded from the
derived result in the initial state and after clearing filters. -/
theorem initial_and_cleared_price_range (urlSearch urlCategory : Option String)
    (c : Criteria) (l : List Event) (e : Event) (h : 1000 < e.price) :
    (initialCriteria urlSearch urlCategory).priceLo = 0 ∧
    (initialCriteria urlSearch urlCategory).priceHi = 1000 ∧
    (clearFilters c).priceLo = 0 ∧
    (clearFilters c).priceHi = 1000 ∧
    e ∉ derive (initialCriteria urlSearch urlCategory) l ∧
    e ∉ derive (clearFilters c) l := by
  have key : ∀ c' : Criteria, c'.priceHi = 1000 → e ∉ derive c' l := by
    intro c' hhi he
    rw [derive, jsSort, List.mem_mergeSort, filterPipeline_eq_filter,
      List.mem_filter] at he
    have hpasses := he.2
    simp only [passes, Bool.and_eq_true] at hpasses
    have hprice := hpasses.2
    simp only [pricePred, Bool.and_eq_true, decide_eq_true_eq] at hprice
    omega
  exact ⟨rfl, rfl, rfl, rfl, key _ rfl, key _ rfl⟩

/-- Witness for C10: a 1500-priced event is excluded both initially and
after clearing. -/
theorem initial_and_cleared_price_range_witness :
    (initialCriteria none none).priceLo = 0 ∧
    (initialCriteria none none).priceHi = 1000 ∧
    (clearFilters ⟨ "jazz", "", "", 0, 1000, "date"⟩).priceLo = 0 ∧
    (clearFilters ⟨ "jazz", "", "", 0, 1000, "date"⟩).priceHi = 1000 ∧
    pricyGala ∉ derive (initialCriteria none none) [pricyGala] ∧
    pricyGala ∉ derive (clearFilters ⟨ "jazz", "", "", 0, 1000, "date"⟩)
      [pricyGala] :=
  initial_and_cleared_price_range none none ⟨ "jazz", "", "", 0, 1000, "date"⟩
    [pricyGala] pricyGala (by decide)

/-- Claim C7, amended: the `AuthModal` variant with the sync effect resets
its internal mode to the new `defaultMode` whenever the prop changes, while
the variant without the effect keeps its previous mode. -/
theorem authModal_defaultMode_sync (m d : String) :
    authModalSyncStep m (ModalEv.setDefaultMode d) = d ∧
    authModalNoSyncStep m (ModalEv.setDefaultMode d) = m :=
  ⟨rfl, rfl⟩

/-- Counterexample to Claim C7 as stated: in the `AuthModal` variant without
the sync effect, changing `defaultMode` from "login" to "signup" leaves the
internal mode at "login" instead of resetting it to the new default. -/
theorem authModal_no_sync_counterexample :
    authModalNoSyncStep "login" (ModalEv.setDefaultMode "signup") = "login" ∧
    authModalNoSyncStep "login" (ModalEv.setDefaultMode "signup") ≠ "signup" :=
  ⟨rfl, by decide⟩

end EventHub
